import Mathlib

/-!
Shallow embedding of `pathvalidate` (src/pathvalidate/__init__.py).

Strings are modelled as `List Char` (Python unicode strings as sequences of
code points).  The module constant `__INVALID_PATH_CHARS = '\:*?"<>|'`
denotes the eight characters backslash, colon, asterisk, question mark,
double quote, less-than, greater-than, vertical bar (Python leaves the
unrecognised escape `\:` as a literal backslash followed by a colon).

`validate_filename` raises `ValueError("null path")` when
`dataproperty.is_empty_string(filename)` holds, i.e. when the string is
empty after `str.strip()` (the external helper strips the value and tests
for zero length); otherwise it searches the string left to right with
`re.search("[%s]" % re.escape(__INVALID_PATH_CHARS))` and raises
`ValueError("invalid char found ...")` carrying the first matched
character.  `sanitize_filename` strips the input and substitutes every
occurrence of one of the eight characters with the replacement text.
-/

namespace Pathvalidate

/-- Membership in the character class built from
`__INVALID_PATH_CHARS = '\:*?"<>|'`: the eight characters backslash,
colon, asterisk, question mark, double quote, less-than, greater-than and
vertical bar. -/
def isInvalidPathChar (c : Char) : Bool :=
  c == '\\' || c == ':' || c == '*' || c == '?' || c == '"' ||
  c == '<' || c == '>' || c == '|'

/-- Python `str.isspace` for a single code point: the ASCII whitespace
characters 0x09-0x0d and 0x20, the separators 0x1c-0x1f, 0x85, and the
Unicode space characters (category Zs plus the line/paragraph
separators). -/
def pyIsSpace (c : Char) : Bool :=
  (0x9 ≤ c.toNat && c.toNat ≤ 0xd) || c.toNat == 0x20 ||
  (0x1c ≤ c.toNat && c.toNat ≤ 0x1f) || c.toNat == 0x85 ||
  c.toNat == 0xa0 || c.toNat == 0x1680 ||
  (0x2000 ≤ c.toNat && c.toNat ≤ 0x200a) || c.toNat == 0x2028 ||
  c.toNat == 0x2029 || c.toNat == 0x202f || c.toNat == 0x205f ||
  c.toNat == 0x3000

/-- Python `str.strip()`: remove leading and trailing whitespace. -/
def pyStrip (l : List Char) : List Char :=
  ((l.dropWhile pyIsSpace).reverse.dropWhile pyIsSpace).reverse

/-- The external helper `dataproperty.is_empty_string` applied to a string:
it strips the value and tests whether the result has length zero (so a
whitespace-only string counts as empty). -/
def is_empty_string (l : List Char) : Bool := pyStrip l == []

/-- The two failure modes of `validate_filename`: `ValueError("null path")`
and `ValueError("invalid char found in the file path: ...")` carrying the
matched character (the source wraps it in `re.escape` for display only). -/
inductive PathError where
  | nullPath : PathError
  | invalidChar : Char → PathError
deriving DecidableEq, Repr

/-- `validate_filename` from `src/pathvalidate/__init__.py`: raise
`null path` if the name is empty (after stripping, per
`dataproperty.is_empty_string`), otherwise search the name left to right
for one of the eight invalid characters and raise `invalid char` carrying
the first match; succeed when neither applies. -/
def validate_filename (filename : List Char) : Except PathError Unit :=
  if is_empty_string filename then Except.error PathError.nullPath
  else
    match filename.find? isInvalidPathChar with
    | some c => Except.error (PathError.invalidChar c)
    | none => Except.ok ()

/-- The substitution `re_replace.sub(replacement_text, filename)` for the
character class `[\:*?"<>|]`: each code point matching the class is
replaced by the replacement text, all other code points are kept.  The
replacement is inserted literally; Python `re.sub` additionally processes
backslash escapes in the replacement template, which coincides with
literal insertion whenever the replacement text contains no backslash
(and the backslash is itself one of the replaced characters).  The full
template-processing semantics, including the escape-error cases, are
modelled by `sanitize_filename_sub` below, and the two are proved to
agree on backslash-free replacement texts. -/
def replaceInvalid (replacement : List Char) : List Char → List Char
  | [] => []
  | c :: rest =>
      (if isInvalidPathChar c then replacement else [c]) ++
        replaceInvalid replacement rest

/-- `sanitize_filename` from `src/pathvalidate/__init__.py`: strip the
input, then replace every occurrence of one of the eight invalid
characters with the replacement text (Python default: the empty
string). -/
def sanitize_filename (filename : List Char) (replacement : List Char) :
    List Char :=
  replaceInvalid replacement (pyStrip filename)

/-- Numeric value of an octal digit character. -/
def octVal (c : Char) : Nat := c.toNat - 48

/-- Octal digit test (the characters 0 through 7). -/
def isOctDigit (c : Char) : Bool := 48 ≤ c.toNat && c.toNat ≤ 55

/-- One item of a parsed `re.sub` replacement template: a literal
character, or a reference to the whole match (group 0). -/
inductive TmplItem where
  | lit : Char → TmplItem
  | matchRef : TmplItem
deriving DecidableEq, Repr

/-- Parse one escape sequence of an `re.sub` replacement template (the
input is the text following a backslash); returns the produced items and
the remaining input, `none` modelling the `re.error` raised by CPython 3.
Follows `sre_parse.parse_template`: a group reference written
`\g<number>` is valid only for group 0 (an all-zero number), since the
pattern `[\:*?"<>|]` has no capture groups; `\0` with up to two further
octal digits, and three-octal-digit escapes of value at most 0o377, are
character escapes; numeric references `\1`–`\99` are invalid group
references; `\a \b \f \n \r \t \v \\` follow the escape table; any other
escaped ASCII letter is a bad escape; an escaped non-letter is kept
together with its backslash; a backslash at the end of the template is a
bad escape. -/
def parseEscape : List Char → Option (List TmplItem × List Char)
  | [] => none
  | 'g' :: rest =>
    match rest with
    | '<' :: rest2 =>
      match rest2.dropWhile (fun c => !(c == '>')) with
      | [] => none
      | _ :: rest4 =>
        let name := rest2.takeWhile (fun c => !(c == '>'))
        if !name.isEmpty && name.all (fun c => c == '0') then
          some ([TmplItem.matchRef], rest4)
        else none
    | _ => none
  | '0' :: rest =>
    match rest with
    | d1 :: d2 :: rest2 =>
      if isOctDigit d1 && isOctDigit d2 then
        some ([TmplItem.lit (Char.ofNat (octVal d1 * 8 + octVal d2))], rest2)
      else if isOctDigit d1 then
        some ([TmplItem.lit (Char.ofNat (octVal d1))], d2 :: rest2)
      else
        some ([TmplItem.lit (Char.ofNat 0)], d1 :: d2 :: rest2)
    | [d1] =>
      if isOctDigit d1 then some ([TmplItem.lit (Char.ofNat (octVal d1))], [])
      else some ([TmplItem.lit (Char.ofNat 0)], [d1])
    | [] => some ([TmplItem.lit (Char.ofNat 0)], [])
  | c :: rest =>
    if c.isDigit then
      match rest with
      | d2 :: d3 :: rest2 =>
        if d2.isDigit then
          if isOctDigit c && isOctDigit d2 && isOctDigit d3 then
            let v := octVal c * 64 + octVal d2 * 8 + octVal d3
            if v ≤ 255 then some ([TmplItem.lit (Char.ofNat v)], rest2)
            else none
          else none
        else none
      | _ => none
    else if c == 'a' then some ([TmplItem.lit (Char.ofNat 7)], rest)
    else if c == 'b' then some ([TmplItem.lit (Char.ofNat 8)], rest)
    else if c == 'f' then some ([TmplItem.lit (Char.ofNat 12)], rest)
    else if c == 'n' then some ([TmplItem.lit (Char.ofNat 10)], rest)
    else if c == 'r' then some ([TmplItem.lit (Char.ofNat 13)], rest)
    else if c == 't' then some ([TmplItem.lit (Char.ofNat 9)], rest)
    else if c == 'v' then some ([TmplItem.lit (Char.ofNat 11)], rest)
    else if c == '\\' then some ([TmplItem.lit '\\'], rest)
    else if c.isAlpha then none
    else some ([TmplItem.lit '\\', TmplItem.lit c], rest)

/-- Fuel-bounded parse of a whole replacement template.  The fuel only
bounds the number of recursion steps: every step consumes at least one
input character (an escape consumes at least two), so the template's
length, supplied by `parseTemplate`, always suffices and the
out-of-fuel case is never reached there. -/
def parseTemplateFuel : Nat → List Char → Option (List TmplItem)
  | _, [] => some []
  | 0, _ :: _ => none
  | fuel + 1, c :: rest =>
    if c == '\\' then
      match parseEscape rest with
      | none => none
      | some (items, rest2) =>
          (parseTemplateFuel fuel rest2).map (fun tail => items ++ tail)
    else
      (parseTemplateFuel fuel rest).map (fun tail => TmplItem.lit c :: tail)

/-- Parse an `re.sub` replacement template, as Python does once per `sub`
call before scanning the subject string. -/
def parseTemplate (t : List Char) : Option (List TmplItem) :=
  parseTemplateFuel t.length t

/-- Expansion of a parsed template at a matched character (group 0 of a
match of the class `[\:*?"<>|]` is the single matched character). -/
def expandItems (matched : Char) : List TmplItem → List Char
  | [] => []
  | TmplItem.lit c :: rest => c :: expandItems matched rest
  | TmplItem.matchRef :: rest => matched :: expandItems matched rest

/-- Replace every forbidden character by the expansion of the parsed
template at that character, keeping every other character. -/
def subExpand (items : List TmplItem) : List Char → List Char
  | [] => []
  | c :: rest =>
    (if isInvalidPathChar c then expandItems c items else [c]) ++
      subExpand items rest

/-- `sanitize_filename` with the full replacement-template semantics of
`re_replace.sub(replacement_text, filename)`: the replacement text is
parsed as a template (backslash escapes processed, `none` modelling the
`re.error` raised for a bad escape or an invalid group reference), and
each matched character of the stripped input is replaced by the
template's expansion at it.  On replacement texts containing no
backslash the template is parsed as all-literal and this agrees with
`sanitize_filename`, which inserts the replacement literally (proved
below). -/
def sanitize_filename_sub (filename : List Char) (template : List Char) :
    Option (List Char) :=
  (parseTemplate template).map fun items => subExpand items (pyStrip filename)

theorem mem_of_mem_dropWhile {p : Char → Bool} {l : List Char} {c : Char}
    (h : c ∈ l.dropWhile p) : c ∈ l := by
  induction l with
  | nil => simp at h
  | cons a t ih =>
    rcases hp : p a with _ | _
    · rw [List.dropWhile_cons_of_neg (by simp [hp])] at h
      exact h
    · rw [List.dropWhile_cons_of_pos (by simp [hp])] at h
      exact List.mem_cons_of_mem a (ih h)

theorem mem_pyStrip {l : List Char} {c : Char} (h : c ∈ pyStrip l) : c ∈ l := by
  unfold pyStrip at h
  rw [List.mem_reverse] at h
  have h1 := mem_of_mem_dropWhile h
  rw [List.mem_reverse] at h1
  exact mem_of_mem_dropWhile h1

theorem pyStrip_eq_nil_iff {l : List Char} :
    pyStrip l = [] ↔ ∀ c ∈ l, pyIsSpace c = true := by
  unfold pyStrip
  constructor
  · intro h c hc
    rw [List.reverse_eq_nil_iff, List.dropWhile_eq_nil_iff] at h
    rw [← List.takeWhile_append_dropWhile (p := pyIsSpace) (l := l),
      List.mem_append] at hc
    rcases hc with hc | hc
    · exact List.mem_takeWhile_imp hc
    · exact h c (by rwa [List.mem_reverse])
  · intro h
    have hd : l.dropWhile pyIsSpace = [] := List.dropWhile_eq_nil_iff.mpr h
    simp [hd]

theorem not_space_of_invalid {c : Char} (h : isInvalidPathChar c = true) :
    pyIsSpace c = false := by
  simp only [isInvalidPathChar, Bool.or_eq_true, beq_iff_eq] at h
  rcases h with ((((((rfl | rfl) | rfl) | rfl) | rfl) | rfl) | rfl) | rfl <;>
    rfl

theorem mem_replaceInvalid {r l : List Char} {c : Char}
    (h : c ∈ replaceInvalid r l) :
    c ∈ r ∨ (c ∈ l ∧ isInvalidPathChar c = false) := by
  induction l with
  | nil => simp [replaceInvalid] at h
  | cons a t ih =>
    simp only [replaceInvalid, List.mem_append] at h
    rcases h with h | h
    · rcases ha : isInvalidPathChar a with _ | _
      · rw [if_neg (by simp [ha]), List.mem_singleton] at h
        exact Or.inr ⟨by simp [h], by rwa [h]⟩
      · rw [if_pos (by simp [ha])] at h
        exact Or.inl h
    · rcases ih h with h1 | ⟨h2, h3⟩
      · exact Or.inl h1
      · exact Or.inr ⟨List.mem_cons_of_mem a h2, h3⟩

theorem replaceInvalid_eq_self {r l : List Char}
    (h : ∀ c ∈ l, isInvalidPathChar c = false) : replaceInvalid r l = l := by
  induction l with
  | nil => rfl
  | cons a t ih =>
    have ha := h a (List.mem_cons_self a t)
    simp only [replaceInvalid, ha]
    simp only [Bool.false_eq_true, if_false, List.singleton_append,
      List.cons.injEq, true_and]
    exact ih fun c hc => h c (List.mem_cons_of_mem a hc)

theorem find?_append_of_none {p : Char → Bool} {a : List Char}
    (h : ∀ d ∈ a, p d = false) (b : List Char) :
    (a ++ b).find? p = b.find? p := by
  induction a with
  | nil => rfl
  | cons x t ih =>
    have hx := h x (List.mem_cons_self x t)
    simp only [List.cons_append, List.find?, hx]
    exact ih fun d hd => h d (List.mem_cons_of_mem x hd)

theorem validate_ok_iff {l : List Char} :
    validate_filename l = Except.ok () ↔
      (pyStrip l ≠ [] ∧ ∀ c ∈ l, isInvalidPathChar c = false) := by
  unfold validate_filename is_empty_string
  rcases hs : (pyStrip l == []) with _ | _
  · rw [if_neg (by simp [hs])]
    rcases hf : l.find? isInvalidPathChar with _ | c
    · rw [List.find?_eq_none] at hf
      simp only [beq_eq_false_iff_ne, ne_eq] at hs
      constructor
      · intro _
        exact ⟨hs, fun c hc => by simpa using hf c hc⟩
      · intro _
        rfl
    · have hc := List.find?_some hf
      have hm := List.mem_of_find?_eq_some hf
      constructor
      · intro h
        exact absurd h (by simp)
      · intro ⟨_, hall⟩
        rw [hall c hm] at hc
        exact absurd hc (by simp)
  · rw [if_pos (by simp [hs])]
    rw [beq_iff_eq] at hs
    constructor
    · intro h
      exact absurd h (by simp)
    · intro ⟨hne, _⟩
      exact absurd hs hne

theorem validate_error_iff {l : List Char} :
    (∃ e, validate_filename l = Except.error e) ↔
      (pyStrip l = [] ∨ l.any isInvalidPathChar = true) := by
  constructor
  · intro ⟨e, he⟩
    by_contra hcon
    push_neg at hcon
    obtain ⟨h1, h2⟩ := hcon
    have h2a : ∀ c ∈ l, isInvalidPathChar c = false := by
      intro c hc
      rcases hcc : isInvalidPathChar c with _ | _
      · rfl
      · exact absurd (List.any_eq_true.mpr ⟨c, hc, hcc⟩) h2
    have : validate_filename l = Except.ok () :=
      validate_ok_iff.mpr ⟨h1, h2a⟩
    rw [this] at he
    exact absurd he (by simp)
  · intro h
    rcases hv : validate_filename l with e | u
    · exact ⟨e, rfl⟩
    · obtain ⟨h1, h2⟩ := validate_ok_iff.mp (by cases u; exact hv)
      rcases h with h | h
      · exact absurd h h1
      · rw [List.any_eq_true] at h
        obtain ⟨c, hc, hinv⟩ := h
        rw [h2 c hc] at hinv
        exact absurd hinv (by simp)

theorem parseTemplateFuel_no_backslash {t : List Char} {fuel : Nat}
    (hf : t.length ≤ fuel) (h : ∀ c ∈ t, (c == '\\') = false) :
    parseTemplateFuel fuel t = some (t.map TmplItem.lit) := by
  induction t generalizing fuel with
  | nil => cases fuel <;> rfl
  | cons c rest ih =>
    cases fuel with
    | zero => simp at hf
    | succ f =>
      have hc : (c == '\\') = false := h c (List.mem_cons_self c rest)
      have hrest : ∀ d ∈ rest, (d == '\\') = false :=
        fun d hd => h d (List.mem_cons_of_mem c hd)
      have hlen : rest.length ≤ f := by simpa using hf
      simp [parseTemplateFuel, hc, ih hlen hrest]

theorem expandItems_map_lit (matched : Char) (r : List Char) :
    expandItems matched (r.map TmplItem.lit) = r := by
  induction r with
  | nil => rfl
  | cons c rest ih => simp [expandItems, ih]

theorem subExpand_map_lit (r l : List Char) :
    subExpand (r.map TmplItem.lit) l = replaceInvalid r l := by
  induction l with
  | nil => rfl
  | cons c rest ih =>
    simp only [subExpand, replaceInvalid, ih, expandItems_map_lit]

/-- Claim C1, counterexample.  The input `": :"` is non-empty after
stripping and its sanitized result `" "` is non-empty, yet
`validate_filename` rejects the sanitized result with the null-path error,
because the sanitizer can expose a whitespace-only string which the
validator's emptiness test (which strips before measuring) treats as
empty.  So the sanitizer's output does not always pass the validator under
the claim's hypotheses. -/
theorem C1_counterexample :
    pyStrip (": :".toList) ≠ [] ∧
    sanitize_filename (": :".toList) [] ≠ [] ∧
    validate_filename (sanitize_filename (": :".toList) []) =
      Except.error PathError.nullPath :=
  ⟨by decide, by decide, rfl⟩

/-- Claim C1, amended.  Whenever the sanitized result (with the default
empty replacement text) is non-blank, i.e. non-empty even after stripping
whitespace, `validate_filename` accepts it: the sanitizer removes every
invalid character, so only the emptiness test could reject its output. -/
theorem C1_sound (x : List Char)
    (h : pyStrip (sanitize_filename x []) ≠ []) :
    validate_filename (sanitize_filename x []) = Except.ok () := by
  refine validate_ok_iff.mpr ⟨h, fun c hc => ?_⟩
  rcases mem_replaceInvalid hc with hr | ⟨_, hinv⟩
  · simp at hr
  · exact hinv

/-- Claim C1, witness for the amended theorem at the input `"ab"`. -/
theorem C1_sound_witness :
    pyStrip (sanitize_filename ("ab".toList) []) ≠ [] ∧
    validate_filename (sanitize_filename ("ab".toList) []) = Except.ok () :=
  ⟨by decide, C1_sound ("ab".toList) (by decide)⟩

/-- Claim C2, counterexample.  Sanitization is not idempotent: on the
input `"a :"` the first pass yields `"a "` (the colon is removed after
stripping, exposing a trailing space), and the second pass strips that
space, yielding `"a"`. -/
theorem C2_counterexample :
    sanitize_filename (sanitize_filename ("a :".toList) []) [] ≠
      sanitize_filename ("a :".toList) [] := by
  decide

/-- Claim C2, amended.  With the default empty replacement text, applying
the sanitizer twice equals stripping whitespace from the once-sanitized
result; consequently sanitization is idempotent exactly on those inputs
whose sanitized result carries no leading or trailing whitespace. -/
theorem C2_idempotent_on_stripped :
    (∀ x : List Char,
      sanitize_filename (sanitize_filename x []) [] =
        pyStrip (sanitize_filename x [])) ∧
    (∀ x : List Char,
      pyStrip (sanitize_filename x []) = sanitize_filename x [] →
      sanitize_filename (sanitize_filename x []) [] =
        sanitize_filename x []) := by
  have core : ∀ x : List Char,
      sanitize_filename (sanitize_filename x []) [] =
        pyStrip (sanitize_filename x []) := by
    intro x
    show replaceInvalid [] (pyStrip (sanitize_filename x [])) =
      pyStrip (sanitize_filename x [])
    refine replaceInvalid_eq_self fun c hc => ?_
    rcases mem_replaceInvalid (mem_pyStrip hc) with hr | ⟨_, hinv⟩
    · simp at hr
    · exact hinv
  exact ⟨core, fun x h => by rw [core x, h]⟩

/-- Claim C2, witness for the amended theorem at the input `"ok"`. -/
theorem C2_witness :
    pyStrip (sanitize_filename ("ok".toList) []) =
      sanitize_filename ("ok".toList) [] ∧
    sanitize_filename (sanitize_filename ("ok".toList) []) [] =
      sanitize_filename ("ok".toList) [] :=
  ⟨by decide, C2_idempotent_on_stripped.2 ("ok".toList) (by decide)⟩

/-- Claim C3.  The validator accepts names containing ASCII control code
points: `"\x01a"` and `"\x7fa"` both validate successfully, because the
only characters it searches for are the eight of `__INVALID_PATH_CHARS`,
which include no control character. -/
theorem C3_control_chars_accepted :
    validate_filename (Char.ofNat 1 :: ['a']) = Except.ok () ∧
    validate_filename (Char.ofNat 127 :: ['a']) = Except.ok () :=
  ⟨rfl, rfl⟩

/-- Claim C4.  The validator imposes no length bound: names of 255 and of
256 repetitions of a legal character both validate successfully, so no
name ever fails with an invalid-length error. -/
theorem C4_no_length_limit :
    validate_filename (List.replicate 255 'a') = Except.ok () ∧
    validate_filename (List.replicate 256 'a') = Except.ok () :=
  ⟨rfl, rfl⟩

/-- Claim C5.  Reserved device names receive no special treatment:
`"con"`, `"CON"` and `"Con.txt"` all validate successfully, and the
sanitizer returns `"con"` unchanged instead of appending the
disambiguating suffix. -/
theorem C5_reserved_names_accepted :
    validate_filename ("con".toList) = Except.ok () ∧
    validate_filename ("CON".toList) = Except.ok () ∧
    validate_filename ("Con.txt".toList) = Except.ok () ∧
    sanitize_filename ("con".toList) [] = "con".toList :=
  ⟨rfl, rfl, rfl, by decide⟩

/-- Claim C6, counterexample.  On the name `":*"` the validator reports
only the colon, the first match of its left-to-right search, although the
asterisk is a distinct forbidden character also occurring in the name: the
error does not carry all distinct offending characters. -/
theorem C6_counterexample :
    validate_filename (":*".toList) =
      Except.error (PathError.invalidChar ':') ∧
    '*' ∈ ":*".toList ∧ isInvalidPathChar '*' = true ∧ (':' : Char) ≠ '*' :=
  ⟨rfl, by decide, rfl, by decide⟩

/-- Claim C6, amended.  When the validator rejects a name for character
legality it reports exactly the leftmost forbidden character: if the name
splits as `a ++ c :: b` with `c` forbidden and no character of `a`
forbidden, the error carries `c` and nothing else. -/
theorem C6_first_invalid_reported (a b : List Char) (c : Char)
    (hc : isInvalidPathChar c = true)
    (ha : a.all (fun d => !isInvalidPathChar d) = true) :
    validate_filename (a ++ c :: b) =
      Except.error (PathError.invalidChar c) := by
  have ha2 : ∀ d ∈ a, isInvalidPathChar d = false := by
    intro d hd
    simpa using List.all_eq_true.mp ha d hd
  have hmem : c ∈ a ++ c :: b :=
    List.mem_append_right a (List.mem_cons_self c b)
  have hstrip : pyStrip (a ++ c :: b) ≠ [] := by
    intro h0
    have hsp := pyStrip_eq_nil_iff.mp h0 c hmem
    rw [not_space_of_invalid hc] at hsp
    exact absurd hsp (by simp)
  have hempty : is_empty_string (a ++ c :: b) = false := by
    unfold is_empty_string
    simpa using hstrip
  have hfind : (a ++ c :: b).find? isInvalidPathChar = some c := by
    rw [find?_append_of_none ha2]
    simp [List.find?, hc]
  unfold validate_filename
  rw [hempty, hfind]
  simp

/-- Claim C6, witness for the amended theorem at the name `"x:*"`. -/
theorem C6_witness :
    isInvalidPathChar ':' = true ∧
    (['x'].all (fun d => !isInvalidPathChar d) = true) ∧
    validate_filename (['x'] ++ ':' :: ['*']) =
      Except.error (PathError.invalidChar ':') :=
  ⟨rfl, rfl, C6_first_invalid_reported ['x'] ['*'] ':' rfl rfl⟩

/-- Claim C7.  The empty string fails validation with the null-path error
(the source's `ValueError("null path")`, the NullName case) and, the
result being an equality, with no other error kind. -/
theorem C7_empty_rejected_null :
    validate_filename [] = Except.error PathError.nullPath := rfl

/-- Claim C8, counterexample.  The general clause of the claim fails for
a replacement text containing a backslash, because `re.sub` processes the
replacement as a template: with replacement text `"\n"` the colon of
`"A:B"` is replaced by a newline character — not by the two-character
replacement text itself, which literal insertion would produce — and a
replacement consisting of a lone backslash makes `re.sub` raise
`re.error` instead of replacing anything. -/
theorem C8_counterexample :
    sanitize_filename_sub ("A:B".toList) ['\\', 'n'] =
      some ['A', Char.ofNat 10, 'B'] ∧
    replaceInvalid ['\\', 'n'] (pyStrip ("A:B".toList)) =
      ['A', '\\', 'n', 'B'] ∧
    (['A', Char.ofNat 10, 'B'] : List Char) ≠ ['A', '\\', 'n', 'B'] ∧
    sanitize_filename_sub ("A:B".toList) ['\\'] = none :=
  ⟨by decide, by decide, by decide, by decide⟩

/-- Claim C8, amended.  `sanitize_filename("A:B", "-")` returns `"A-B"`,
and for every replacement text containing no backslash — on which
`re.sub` parses the template as all-literal, so the template semantics
agree with literal insertion, as the first conjunct proves — every
occurrence of a forbidden character is replaced by the replacement text
and every non-forbidden code point is kept unchanged, each code point
being examined individually. -/
theorem C8_char_replacement (x r : List Char)
    (hr : r.all (fun d => !(d == '\\')) = true) :
    sanitize_filename_sub x r = some (sanitize_filename x r) ∧
    sanitize_filename ("A:B".toList) ("-".toList) = "A-B".toList ∧
    (∀ (a b : List Char) (c : Char), isInvalidPathChar c = true →
      replaceInvalid r (a ++ c :: b) =
        replaceInvalid r a ++ r ++ replaceInvalid r b) ∧
    (∀ c : Char, isInvalidPathChar c = false →
      replaceInvalid r [c] = [c]) := by
  refine ⟨?_, by decide, ?_, ?_⟩
  · have hall : ∀ c ∈ r, (c == '\\') = false := by
      intro c hc
      simpa using List.all_eq_true.mp hr c hc
    unfold sanitize_filename_sub parseTemplate
    rw [parseTemplateFuel_no_backslash (Nat.le_refl _) hall]
    simp [sanitize_filename, subExpand_map_lit]
  · intro a b c hc
    induction a with
    | nil => simp [replaceInvalid, hc]
    | cons y t ih =>
      simp only [List.cons_append, replaceInvalid, List.append_eq, ih,
        List.append_assoc]
  · intro c hc
    simp [replaceInvalid, hc]

/-- Claim C8, witness at the input `"A:B"` with the backslash-free
replacement `"-"`: the template model agrees with the literal model
there and both produce `"A-B"`. -/
theorem C8_witness :
    (("-".toList).all (fun d => !(d == '\\')) = true) ∧
    sanitize_filename_sub ("A:B".toList) ("-".toList) =
      some (sanitize_filename ("A:B".toList) ("-".toList)) ∧
    sanitize_filename ("A:B".toList) ("-".toList) = "A-B".toList :=
  ⟨by decide,
    (C8_char_replacement ("A:B".toList) ("-".toList) (by decide)).1,
    (C8_char_replacement ("A:B".toList) ("-".toList) (by decide)).2.1⟩

/-- Claim C9.  The validator raises if and only if the name is empty (or
blank, i.e. whitespace-only, which the emptiness helper strips before
measuring) or contains one of the eight characters backslash, colon,
asterisk, question mark, double quote, less-than, greater-than, vertical
bar; every other string validates successfully, including a name of 300
code points, the reserved device name `"CON"`, a name containing the
forward slash, and a name containing an ASCII control character. -/
theorem C9_raise_characterization :
    (∀ l : List Char,
      (∃ e, validate_filename l = Except.error e) ↔
        (pyStrip l = [] ∨ l.any isInvalidPathChar = true)) ∧
    validate_filename (List.replicate 300 'a') = Except.ok () ∧
    validate_filename ("CON".toList) = Except.ok () ∧
    validate_filename ("a/b".toList) = Except.ok () ∧
    validate_filename (Char.ofNat 7 :: ['x']) = Except.ok () :=
  ⟨fun _ => validate_error_iff, rfl, rfl, rfl, rfl⟩

/-- Claim C10.  Sanitizer postcondition: whenever the replacement text
contains none of the eight forbidden characters, no character of the
sanitized result is forbidden, since every output character is either a
kept non-forbidden input character or a character of the replacement
text. -/
theorem C10_sanitized_has_no_invalid (x r : List Char) (c : Char)
    (hr : r.all (fun d => !isInvalidPathChar d) = true)
    (hc : c ∈ sanitize_filename x r) :
    isInvalidPathChar c = false := by
  rcases mem_replaceInvalid hc with h | ⟨_, hinv⟩
  · simpa using List.all_eq_true.mp hr c h
  · exact hinv

/-- Claim C10, witness at the input `":a:"` with replacement `"-"` and
the output character `'a'`. -/
theorem C10_witness :
    (("-".toList).all (fun d => !isInvalidPathChar d) = true) ∧
    'a' ∈ sanitize_filename (":a:".toList) ("-".toList) ∧
    isInvalidPathChar 'a' = false :=
  ⟨rfl, by decide,
    C10_sanitized_has_no_invalid (":a:".toList) ("-".toList) 'a' rfl
      (by decide)⟩

end Pathvalidate
